import Mathlib

/-!
Verification development for the QuestNav viewer core
(src/examples/python_questnav_viewer/questnav_viewer.py).

The per-tick update loop of the viewer is shallowly embedded below.
Pure data is modelled directly; the mutable attributes of the
QuestNavViewer object become fields of `ViewerState`, and one call of
the scheduled `_update_loop` body becomes the function `update_loop`
from a state and the values drained from the transport that tick
(`TickInput`) to the next state plus the log events emitted.
Timestamps and rates are modelled as rationals.
-/

/-- Modelled from the spec: a pose frame as delivered by
`get_all_unread_pose_frames` of the questnav library, whose definition is
not part of the viewer source. The spec describes it as the record
`{sequence, pose, observed_at}`; the viewer reads `frame.frame_count` and
`frame.quest_pose_3d`, and compares frames with `frame == frames[0]`,
modelled as value equality of the record. The pose payload is
represented by an abstract identifier. -/
structure PoseFrame where
  frame_count : Nat
  quest_pose_3d : Nat
deriving DecidableEq, Repr

/-- Log events emitted by the update loop (the GUI log lines that carry
state information). -/
inductive LogEvent where
  | connectionStarted
  | connectionLost
  | trackingStarted
  | trackingLost
  | lowBattery (pct : Nat)
  | droppedFrames (n : Nat)
deriving DecidableEq, Repr

/-- Mutable attributes of the QuestNavViewer object that the update loop
reads and writes, together with the displayed values of the labels it
drives. Display fields are `Option`-valued where the label initially
shows a placeholder. -/
structure ViewerState where
  total_frames_received : Nat
  last_frame_count : Nat
  frame_drops : Nat
  frame_rate_samples : List ℚ
  last_frame_time : ℚ
  low_battery_warned : Bool
  was_connected : Option Bool
  was_tracking : Option Bool
  batt_display : Option Nat
  latency_display : Option ℚ
  frame_count_display : Option Nat
  tracking_lost_display : Nat
  frame_rate_display : Option ℚ
  pose_display : Option Nat
deriving Repr

/-- The state right after `__init__`: counters at zero, empty rate
window, no previous connection or tracking flag recorded (the code uses
hasattr checks, modelled as `Option.none`), placeholder labels, and the
Tracking Lost Events label showing 0. -/
def initState : ViewerState :=
  { total_frames_received := 0
    last_frame_count := 0
    frame_drops := 0
    frame_rate_samples := []
    last_frame_time := 0
    low_battery_warned := false
    was_connected := none
    was_tracking := none
    batt_display := none
    latency_display := none
    frame_count_display := none
    tracking_lost_display := 0
    frame_rate_display := none
    pose_display := none }

/-- Values drained from the transport during one tick: the batch of
unread pose frames, the two boolean flags, and the optional device
reported fields, plus the tick timestamp read once at the top of the
loop. -/
structure TickInput where
  current_time : ℚ
  frames : List PoseFrame
  connected : Bool
  tracking : Bool
  battery : Option Nat
  latency : ℚ
  frame_count : Option Nat
  tracking_lost : Option Nat
deriving Repr

/-- Rolling rate window push: `frame_rate_samples.append(fps)` followed by
`pop(0)` when the length exceeds 10. -/
def pushSample (samples : List ℚ) (x : ℚ) : List ℚ :=
  if 10 < (samples ++ [x]).length then (samples ++ [x]).drop 1 else samples ++ [x]

/-- Average frame rate: `sum(samples) / len(samples)` guarded by
`if self.frame_rate_samples`, so no value is produced on an empty
window. -/
def averageRate (samples : List ℚ) : Option ℚ :=
  if samples = [] then none else some (samples.sum / (samples.length : ℚ))

/-- Frame drop detection for one frame of the batch:
`if self.last_frame_count > 0 and frame == frames[0]: expected = last + 1;
if frame.frame_count > expected: drops = frame.frame_count - expected;
frame_drops += drops; log a warning when drops > 5`. -/
def dropCheck (first : PoseFrame) (s : ViewerState) (evs : List LogEvent)
    (frame : PoseFrame) : ViewerState × List LogEvent :=
  if 0 < s.last_frame_count ∧ frame = first then
    if s.last_frame_count + 1 < frame.frame_count then
      ({ s with frame_drops :=
           s.frame_drops + (frame.frame_count - (s.last_frame_count + 1)) },
       if 5 < frame.frame_count - (s.last_frame_count + 1) then
         evs ++ [LogEvent.droppedFrames (frame.frame_count - (s.last_frame_count + 1))]
       else evs)
    else (s, evs)
  else (s, evs)

/-- Frame rate sample computation for one frame:
`if self.last_frame_time > 0: dt = current_time - last_frame_time;
if dt > 0: push 1/dt`. -/
def rateUpdate (t : ℚ) (s : ViewerState) : ViewerState :=
  if 0 < s.last_frame_time then
    if 0 < t - s.last_frame_time then
      { s with frame_rate_samples :=
          pushSample s.frame_rate_samples (1 / (t - s.last_frame_time)) }
    else s
  else s

/-- Body of the per-frame loop in `_update_loop`: count the frame, run the
drop check against the first frame of the batch, record the sequence,
advance the rate estimator, stamp the frame time with the tick timestamp
and update the pose display. -/
def processFrame (first : PoseFrame) (t : ℚ) (acc : ViewerState × List LogEvent)
    (frame : PoseFrame) : ViewerState × List LogEvent :=
  let s0 := { acc.1 with total_frames_received := acc.1.total_frames_received + 1 }
  let r := dropCheck first s0 acc.2 frame
  let s1 := { r.1 with last_frame_count := frame.frame_count }
  let s2 := rateUpdate t s1
  ({ s2 with last_frame_time := t, pose_display := some frame.quest_pose_3d }, r.2)

/-- The `for frame in frames` loop: a left fold of `processFrame` with the
first element of the batch fixed, a no-op on an empty batch. -/
def processBatch (t : ℚ) (s : ViewerState) (frames : List PoseFrame) :
    ViewerState × List LogEvent :=
  match frames with
  | [] => (s, [])
  | first :: _ => frames.foldl (processFrame first t) (s, [])

/-- Battery handling: when a battery percentage is reported the label is
updated, and a single low battery warning is logged the first time the
value is below 20 (`hasattr` guard on `_low_battery_warned`, modelled as
a Boolean that starts false and is only ever set). -/
def batteryStep (s : ViewerState) (battery : Option Nat) :
    ViewerState × List LogEvent :=
  match battery with
  | none => (s, [])
  | some b =>
    if b < 20 ∧ s.low_battery_warned = false then
      ({ s with batt_display := some b, low_battery_warned := true },
       [LogEvent.lowBattery b])
    else ({ s with batt_display := some b }, [])

/-- Edge logging for one boolean flag: nothing when no previous value is
recorded (first tick), a started event on false to true, a lost event on
true to false, nothing on steady state. -/
def edgeEvents (was : Option Bool) (now : Bool) (started lost : LogEvent) :
    List LogEvent :=
  match was with
  | none => []
  | some p =>
    if now = true ∧ p = false then [started]
    else if now = false ∧ p = true then [lost]
    else []

/-- The part of `_update_loop` after the frame loop: flag reads, battery,
latency, device frame counter, device tracking lost counter, average
frame rate, the two edge logs, and storing the flags for the next
tick. -/
def postBatch (s : ViewerState) (inp : TickInput) : ViewerState × List LogEvent :=
  let r := batteryStep s inp.battery
  let s1 := { r.1 with latency_display := some inp.latency }
  let s2 := match inp.frame_count with
            | none => s1
            | some c => { s1 with frame_count_display := some c }
  let s3 := match inp.tracking_lost with
            | none => s2
            | some v => { s2 with tracking_lost_display := v }
  let s4 := match averageRate s3.frame_rate_samples with
            | none => s3
            | some a => { s3 with frame_rate_display := some a }
  let cevs := edgeEvents s4.was_connected inp.connected
                LogEvent.connectionStarted LogEvent.connectionLost
  let tevs := edgeEvents s4.was_tracking inp.tracking
                LogEvent.trackingStarted LogEvent.trackingLost
  ({ s4 with was_connected := some inp.connected,
             was_tracking := some inp.tracking },
   r.2 ++ cevs ++ tevs)

/-- One execution of the `_update_loop` body: drain and process the frame
batch, then run the status, diagnostics and edge logging section. -/
def update_loop (s : ViewerState) (inp : TickInput) : ViewerState × List LogEvent :=
  let r := processBatch inp.current_time s inp.frames
  let r2 := postBatch r.1 inp
  (r2.1, r.2 ++ r2.2)

/-- Final state after a sequence of scheduler ticks. -/
def runTicks : ViewerState → List TickInput → ViewerState
  | s, [] => s
  | s, i :: is => runTicks (update_loop s i).1 is

/-- Events emitted on each tick of a sequence of scheduler ticks, in
order. -/
def runEvents : ViewerState → List TickInput → List (List LogEvent)
  | _, [] => []
  | s, i :: is => (update_loop s i).2 :: runEvents (update_loop s i).1 is

/-- One pose reset command published to the command channel, carrying the
parsed x, y, z in meters and yaw in degrees. -/
inductive PoseCommand where
  | setPose (x y z yawDeg : ℚ)
deriving DecidableEq, Repr

/-- Outcome of the custom pose dialog send button. -/
structure CustomPoseResult where
  sent_commands : List PoseCommand
  error_shown : Bool
  dialog_closed : Bool
deriving Repr

/-- The `send_custom_pose` handler: the four entry strings are parsed with
`float(...)` inside a try block; a ValueError from any of them shows an
error box and publishes nothing, otherwise exactly one `set_pose` command
is sent and the dialog closes. The inputs are the parse outcomes of the
four fields (`float` is a host builtin), in the order the code attempts
them. -/
def send_custom_pose (xs ys zs yaws : Option ℚ) : CustomPoseResult :=
  match xs, ys, zs, yaws with
  | some x, some y, some z, some yaw =>
    { sent_commands := [PoseCommand.setPose x y z yaw]
      error_shown := false
      dialog_closed := true }
  | _, _, _, _ =>
    { sent_commands := []
      error_shown := true
      dialog_closed := false }

/-- Drop count contributed by one frame of the batch, as a function of the
recorded last sequence: positive only when a reference exists, the frame
equals the first frame of the batch, and its sequence exceeds the
expected one. -/
def dropDelta (lastCount : Nat) (first f : PoseFrame) : Nat :=
  if 0 < lastCount ∧ f = first then
    if lastCount + 1 < f.frame_count then f.frame_count - (lastCount + 1) else 0
  else 0

/-- Warning events contributed by one frame of the batch: one dropped
frames warning exactly when the drop count exceeds 5. -/
def dropEvents (lastCount : Nat) (first f : PoseFrame) : List LogEvent :=
  if 0 < lastCount ∧ f = first ∧ lastCount + 1 < f.frame_count
       ∧ 5 < f.frame_count - (lastCount + 1) then
    [LogEvent.droppedFrames (f.frame_count - (lastCount + 1))]
  else []

/-- Rolling window contents after one frame, as a function of the previous
frame time and window. -/
def nextSamples (t lastT : ℚ) (samples : List ℚ) : List ℚ :=
  if 0 < lastT ∧ 0 < t - lastT then pushSample samples (1 / (t - lastT)) else samples

lemma dropCheck_eq (first : PoseFrame) (s : ViewerState) (evs : List LogEvent)
    (f : PoseFrame) :
    dropCheck first s evs f
      = ({ s with frame_drops := s.frame_drops + dropDelta s.last_frame_count first f },
         evs ++ dropEvents s.last_frame_count first f) := by
  by_cases h1 : 0 < s.last_frame_count ∧ f = first
  · obtain ⟨hpos, heq⟩ := h1
    subst heq
    by_cases h2 : s.last_frame_count + 1 < f.frame_count
    · by_cases h3 : 5 < f.frame_count - (s.last_frame_count + 1)
      · simp [dropCheck, dropDelta, dropEvents, hpos, h2, h3]
      · simp [dropCheck, dropDelta, dropEvents, hpos, h2, h3]
    · simp [dropCheck, dropDelta, dropEvents, hpos, h2]
  · simp [dropCheck, dropDelta, dropEvents, h1]
    intro hpos heq
    exact absurd ⟨hpos, heq⟩ h1

lemma rateUpdate_eq (t : ℚ) (s : ViewerState) :
    rateUpdate t s
      = { s with frame_rate_samples :=
            nextSamples t s.last_frame_time s.frame_rate_samples } := by
  by_cases h1 : 0 < s.last_frame_time
  · by_cases h2 : 0 < t - s.last_frame_time
    · simp [rateUpdate, nextSamples, h1, h2]
    · simp [rateUpdate, nextSamples, h1, h2]
  · simp [rateUpdate, nextSamples, h1]

/-- Closed form of the per-frame loop body as a single record update. -/
lemma processFrame_eq (first : PoseFrame) (t : ℚ) (acc : ViewerState × List LogEvent)
    (f : PoseFrame) :
    processFrame first t acc f
      = ({ acc.1 with
            total_frames_received := acc.1.total_frames_received + 1
            frame_drops := acc.1.frame_drops + dropDelta acc.1.last_frame_count first f
            last_frame_count := f.frame_count
            frame_rate_samples :=
              nextSamples t acc.1.last_frame_time acc.1.frame_rate_samples
            last_frame_time := t
            pose_display := some f.quest_pose_3d },
         acc.2 ++ dropEvents acc.1.last_frame_count first f) := by
  simp only [processFrame]
  rw [dropCheck_eq, rateUpdate_eq]

lemma nextSamples_self (t : ℚ) (samples : List ℚ) :
    nextSamples t t samples = samples := by
  simp [nextSamples]

lemma dropDelta_zero (first f : PoseFrame) : dropDelta 0 first f = 0 := by
  simp [dropDelta]

lemma dropDelta_succ (c : Nat) (first f : PoseFrame) (h : f.frame_count = c + 1) :
    dropDelta c first f = 0 := by
  unfold dropDelta
  by_cases h1 : 0 < c ∧ f = first
  · rw [if_pos h1, if_neg (by omega)]
  · rw [if_neg h1]

lemma dropDelta_ne (c : Nat) (first f : PoseFrame) (h : f ≠ first) :
    dropDelta c first f = 0 := by
  unfold dropDelta
  rw [if_neg (by tauto)]

lemma dropEvents_ne (c : Nat) (first f : PoseFrame) (h : f ≠ first) :
    dropEvents c first f = [] := by
  unfold dropEvents
  rw [if_neg (by tauto)]

/-- Fields of the viewer state that the frame loop never touches. -/
lemma foldl_processFrame_preserved (first : PoseFrame) (t : ℚ) (l : List PoseFrame) :
    ∀ acc : ViewerState × List LogEvent,
      ((l.foldl (processFrame first t) acc).1.batt_display = acc.1.batt_display)
    ∧ ((l.foldl (processFrame first t) acc).1.low_battery_warned
         = acc.1.low_battery_warned)
    ∧ ((l.foldl (processFrame first t) acc).1.latency_display = acc.1.latency_display)
    ∧ ((l.foldl (processFrame first t) acc).1.frame_count_display
         = acc.1.frame_count_display)
    ∧ ((l.foldl (processFrame first t) acc).1.tracking_lost_display
         = acc.1.tracking_lost_display)
    ∧ ((l.foldl (processFrame first t) acc).1.frame_rate_display
         = acc.1.frame_rate_display)
    ∧ ((l.foldl (processFrame first t) acc).1.was_connected = acc.1.was_connected)
    ∧ ((l.foldl (processFrame first t) acc).1.was_tracking = acc.1.was_tracking) := by
  induction l with
  | nil =>
    intro acc
    exact ⟨rfl, rfl, rfl, rfl, rfl, rfl, rfl, rfl⟩
  | cons f l ih =>
    intro acc
    rw [List.foldl_cons]
    have h := ih (processFrame first t acc f)
    simpa [processFrame_eq] using h

/-- The pose display after the frame loop shows the pose of the last frame
of the batch. -/
lemma foldl_processFrame_pose (first : PoseFrame) (t : ℚ) (l : List PoseFrame) :
    ∀ acc : ViewerState × List LogEvent,
      (l.foldl (processFrame first t) acc).1.pose_display
        = (match l.getLast? with
           | none => acc.1.pose_display
           | some f => some f.quest_pose_3d) := by
  induction l with
  | nil => intro acc; rfl
  | cons f l ih =>
    intro acc
    rw [List.foldl_cons]
    have h := ih (processFrame first t acc f)
    cases l with
    | nil => simp [processFrame_eq]
    | cons g l2 => simpa [List.getLast?_cons_cons] using h

/-- Once the recorded frame time equals the tick timestamp, further frames
of the same batch change neither the rolling window nor the frame
time. -/
lemma foldl_processFrame_stable (first : PoseFrame) (t : ℚ) (l : List PoseFrame) :
    ∀ acc : ViewerState × List LogEvent, acc.1.last_frame_time = t →
      ((l.foldl (processFrame first t) acc).1.frame_rate_samples
         = acc.1.frame_rate_samples)
    ∧ (l.foldl (processFrame first t) acc).1.last_frame_time = t := by
  induction l with
  | nil => intro acc h; exact ⟨rfl, h⟩
  | cons f l ih =>
    intro acc h
    rw [List.foldl_cons]
    have h2 := ih (processFrame first t acc f) (by simp [processFrame_eq])
    simpa [processFrame_eq, h, nextSamples_self] using h2

/-- The frame loop only appends dropped frames warnings to the event list,
so any event count that ignores those warnings is unchanged. -/
lemma foldl_processFrame_countP (first : PoseFrame) (t : ℚ) (l : List PoseFrame)
    (p : LogEvent → Bool) (hp : ∀ n, p (LogEvent.droppedFrames n) = false) :
    ∀ acc : ViewerState × List LogEvent,
      ((l.foldl (processFrame first t) acc).2.countP p) = acc.2.countP p := by
  induction l with
  | nil => intro acc; rfl
  | cons f l ih =>
    intro acc
    rw [List.foldl_cons]
    have h := ih (processFrame first t acc f)
    rw [h, processFrame_eq]
    simp only [List.countP_append]
    have hz : (dropEvents acc.1.last_frame_count first f).countP p = 0 := by
      unfold dropEvents
      split
      · simp [List.countP_cons, hp]
      · rfl
    omega

/-- When no frame of the remaining batch equals the first frame, the drop
check never fires again: frame drops stay put and the recorded sequence
tracks the frames processed. -/
lemma foldl_processFrame_no_first (first : PoseFrame) (t : ℚ) (l : List PoseFrame)
    (hne : ∀ f ∈ l, f ≠ first) :
    ∀ acc : ViewerState × List LogEvent,
      ((l.foldl (processFrame first t) acc).1.frame_drops = acc.1.frame_drops)
    ∧ ((l.foldl (processFrame first t) acc).1.last_frame_count
         = (match l.getLast? with
            | none => acc.1.last_frame_count
            | some f => f.frame_count)) := by
  induction l with
  | nil => intro acc; exact ⟨rfl, rfl⟩
  | cons f l ih =>
    intro acc
    rw [List.foldl_cons]
    have hf : f ≠ first := hne f (List.mem_cons_self f l)
    have ihr := ih (fun g hg => hne g (List.mem_cons_of_mem f hg))
      (processFrame first t acc f)
    cases l with
    | nil => simp [processFrame_eq, dropDelta_ne _ _ _ hf]
    | cons g l2 =>
      simpa [List.getLast?_cons_cons, processFrame_eq, dropDelta_ne _ _ _ hf]
        using ihr

/-- Every frame of the batch is counted in the total received counter. -/
lemma foldl_processFrame_total (first : PoseFrame) (t : ℚ) (l : List PoseFrame) :
    ∀ acc : ViewerState × List LogEvent,
      (l.foldl (processFrame first t) acc).1.total_frames_received
        = acc.1.total_frames_received + l.length := by
  induction l with
  | nil => intro acc; rfl
  | cons f l ih =>
    intro acc
    rw [List.foldl_cons]
    have h := ih (processFrame first t acc f)
    rw [h, processFrame_eq]
    simp
    omega

/-- Log events produced by the battery section of the loop. -/
def batteryEvents (warned : Bool) (battery : Option Nat) : List LogEvent :=
  match battery with
  | none => []
  | some b => if b < 20 ∧ warned = false then [LogEvent.lowBattery b] else []

/-- Closed form of the state after the post-batch section as a single
record update. -/
lemma postBatch_fst (s : ViewerState) (inp : TickInput) :
    (postBatch s inp).1
      = { s with
          batt_display := match inp.battery with
                          | none => s.batt_display
                          | some b => some b
          low_battery_warned := match inp.battery with
                                | none => s.low_battery_warned
                                | some b =>
                                  if b < 20 ∧ s.low_battery_warned = false then true
                                  else s.low_battery_warned
          latency_display := some inp.latency
          frame_count_display := match inp.frame_count with
                                 | none => s.frame_count_display
                                 | some c => some c
          tracking_lost_display := match inp.tracking_lost with
                                   | none => s.tracking_lost_display
                                   | some v => v
          frame_rate_display := match averageRate s.frame_rate_samples with
                                | none => s.frame_rate_display
                                | some a => some a
          was_connected := some inp.connected
          was_tracking := some inp.tracking } := by
  cases hb : inp.battery with
  | none =>
    cases hf : inp.frame_count <;> cases htl : inp.tracking_lost <;>
      cases hav : averageRate s.frame_rate_samples <;>
      simp [postBatch, batteryStep, hb, hf, htl, hav]
  | some b =>
    by_cases hc : b < 20 ∧ s.low_battery_warned = false <;>
      cases hf : inp.frame_count <;> cases htl : inp.tracking_lost <;>
      cases hav : averageRate s.frame_rate_samples <;>
      simp [postBatch, batteryStep, hb, hf, htl, hav, hc]

/-- The events of the post-batch section are the battery warning followed
by the connection edge and the tracking edge events. -/
lemma postBatch_snd (s : ViewerState) (inp : TickInput) :
    (postBatch s inp).2
      = batteryEvents s.low_battery_warned inp.battery
          ++ edgeEvents s.was_connected inp.connected
              LogEvent.connectionStarted LogEvent.connectionLost
          ++ edgeEvents s.was_tracking inp.tracking
              LogEvent.trackingStarted LogEvent.trackingLost := by
  cases hb : inp.battery with
  | none =>
    cases hf : inp.frame_count <;> cases htl : inp.tracking_lost <;>
      cases hav : averageRate s.frame_rate_samples <;>
      simp [postBatch, batteryStep, batteryEvents, hb, hf, htl, hav]
  | some b =>
    by_cases hc : b < 20 ∧ s.low_battery_warned = false <;>
      cases hf : inp.frame_count <;> cases htl : inp.tracking_lost <;>
      cases hav : averageRate s.frame_rate_samples <;>
      simp [postBatch, batteryStep, batteryEvents, hb, hf, htl, hav, hc]

lemma update_loop_fst (s : ViewerState) (inp : TickInput) :
    (update_loop s inp).1
      = (postBatch (processBatch inp.current_time s inp.frames).1 inp).1 := rfl

lemma update_loop_snd (s : ViewerState) (inp : TickInput) :
    (update_loop s inp).2
      = (processBatch inp.current_time s inp.frames).2
          ++ (postBatch (processBatch inp.current_time s inp.frames).1 inp).2 := rfl

/-- Fields of the viewer state untouched by the whole frame batch. -/
lemma processBatch_preserved (t : ℚ) (s : ViewerState) (frames : List PoseFrame) :
    ((processBatch t s frames).1.batt_display = s.batt_display)
  ∧ ((processBatch t s frames).1.low_battery_warned = s.low_battery_warned)
  ∧ ((processBatch t s frames).1.latency_display = s.latency_display)
  ∧ ((processBatch t s frames).1.frame_count_display = s.frame_count_display)
  ∧ ((processBatch t s frames).1.tracking_lost_display = s.tracking_lost_display)
  ∧ ((processBatch t s frames).1.frame_rate_display = s.frame_rate_display)
  ∧ ((processBatch t s frames).1.was_connected = s.was_connected)
  ∧ ((processBatch t s frames).1.was_tracking = s.was_tracking) := by
  cases frames with
  | nil => exact ⟨rfl, rfl, rfl, rfl, rfl, rfl, rfl, rfl⟩
  | cons first rest =>
    simp only [processBatch]
    exact foldl_processFrame_preserved first t (first :: rest) (s, [])

/-- The batch events never include a low battery, connection or tracking
event. -/
lemma processBatch_countP (t : ℚ) (s : ViewerState) (frames : List PoseFrame)
    (p : LogEvent → Bool) (hp : ∀ n, p (LogEvent.droppedFrames n) = false) :
    (processBatch t s frames).2.countP p = 0 := by
  cases frames with
  | nil => rfl
  | cons first rest =>
    simp only [processBatch]
    rw [foldl_processFrame_countP first t (first :: rest) p hp (s, [])]
    rfl

/-- After the batch the pose display shows the pose of the final frame. -/
lemma processBatch_pose (t : ℚ) (s : ViewerState) (frames : List PoseFrame) :
    (processBatch t s frames).1.pose_display
      = (match frames.getLast? with
         | none => s.pose_display
         | some f => some f.quest_pose_3d) := by
  cases frames with
  | nil => rfl
  | cons first rest =>
    simp only [processBatch]
    exact foldl_processFrame_pose first t (first :: rest) (s, [])

/-- Recognizer for the connection started log event. -/
def isConnStartedEv : LogEvent → Bool
  | LogEvent.connectionStarted => true
  | _ => false

/-- Recognizer for the connection lost log event. -/
def isConnLostEv : LogEvent → Bool
  | LogEvent.connectionLost => true
  | _ => false

/-- Recognizer for the tracking started log event. -/
def isTrackStartedEv : LogEvent → Bool
  | LogEvent.trackingStarted => true
  | _ => false

/-- Recognizer for the tracking lost log event. -/
def isTrackLostEv : LogEvent → Bool
  | LogEvent.trackingLost => true
  | _ => false

/-- Recognizer for the low battery warning log event. -/
def isLowBatteryEv : LogEvent → Bool
  | LogEvent.lowBattery _ => true
  | _ => false

/-- Edge events counted by an arbitrary recognizer: one started event
exactly on a false to true change, one lost event exactly on a true to
false change, and nothing on the first tick. -/
lemma edgeEvents_countP (was : Option Bool) (now : Bool) (a b : LogEvent)
    (p : LogEvent → Bool) :
    (edgeEvents was now a b).countP p
      = (if was = some false ∧ now = true then (if p a then 1 else 0)
         else if was = some true ∧ now = false then (if p b then 1 else 0)
         else 0) := by
  cases was with
  | none => simp [edgeEvents]
  | some q => cases q <;> cases now <;> simp [edgeEvents, List.countP_cons]

/-- The battery section emits no event other than a low battery
warning. -/
lemma batteryEvents_countP_zero (warned : Bool) (battery : Option Nat)
    (p : LogEvent → Bool) (hp : ∀ n, p (LogEvent.lowBattery n) = false) :
    (batteryEvents warned battery).countP p = 0 := by
  cases battery with
  | none => rfl
  | some b =>
    simp only [batteryEvents]
    split
    · simp [List.countP_cons, hp]
    · rfl

/-- Exact count of low battery warnings emitted by the battery
section. -/
lemma batteryEvents_countP_lb (warned : Bool) (battery : Option Nat) :
    (batteryEvents warned battery).countP isLowBatteryEv
      = (match battery with
         | none => 0
         | some b => if b < 20 ∧ warned = false then 1 else 0) := by
  cases battery with
  | none => rfl
  | some b =>
    simp only [batteryEvents]
    split
    · simp [List.countP_cons, isLowBatteryEv]
    · rfl

/-- Sequence values increase in steps of exactly one, starting from an
optional reference value (none when no frame has been seen yet). -/
def consecAfter : Option Nat → List Nat → Bool
  | _, [] => true
  | none, c :: l => consecAfter (some c) l
  | some p, c :: l => (c == p + 1) && consecAfter (some c) l

/-- Reference value after consuming a list of sequence values. -/
def cursorAfter : Option Nat → List Nat → Option Nat
  | o, [] => o
  | _, c :: l => cursorAfter (some c) l

lemma consecAfter_append (l1 l2 : List Nat) :
    ∀ o : Option Nat,
      consecAfter o (l1 ++ l2)
        = (consecAfter o l1 && consecAfter (cursorAfter o l1) l2) := by
  induction l1 with
  | nil => intro o; cases o <;> simp [consecAfter, cursorAfter]
  | cons c l1 ih =>
    intro o
    cases o with
    | none => simpa [consecAfter, cursorAfter] using ih (some c)
    | some p =>
      simp [consecAfter, cursorAfter, ih (some c), Bool.and_assoc]

/-- Processing frames whose sequence values continue in steps of exactly
one never adds drops, and the recorded sequence follows the cursor. -/
lemma foldl_processFrame_consec (first : PoseFrame) (t : ℚ) (l : List PoseFrame) :
    ∀ (acc : ViewerState × List LogEvent) (o : Option Nat),
      acc.1.last_frame_count = o.getD 0 →
      consecAfter o (l.map PoseFrame.frame_count) = true →
      ((l.foldl (processFrame first t) acc).1.frame_drops = acc.1.frame_drops)
    ∧ ((l.foldl (processFrame first t) acc).1.last_frame_count
         = (cursorAfter o (l.map PoseFrame.frame_count)).getD 0) := by
  induction l with
  | nil => intro acc o h hc; exact ⟨rfl, h⟩
  | cons f l ih =>
    intro acc o h hc
    rw [List.foldl_cons]
    cases o with
    | none =>
      have h0 : acc.1.last_frame_count = 0 := h
      have hstep := ih (processFrame first t acc f) (some f.frame_count)
        (by simp [processFrame_eq])
        (by simpa [consecAfter] using hc)
      refine ⟨?_, ?_⟩
      · rw [hstep.1, processFrame_eq]
        simp [h0, dropDelta_zero]
      · rw [hstep.2]
        simp [cursorAfter]
    | some p =>
      have hc2 := hc
      simp only [List.map_cons, consecAfter, Bool.and_eq_true, beq_iff_eq] at hc2
      have hsucc : f.frame_count = acc.1.last_frame_count + 1 := by
        rw [h]
        simpa using hc2.1
      have hstep := ih (processFrame first t acc f) (some f.frame_count)
        (by simp [processFrame_eq]) hc2.2
      refine ⟨?_, ?_⟩
      · rw [hstep.1, processFrame_eq]
        simp [dropDelta_succ _ _ _ hsucc]
      · rw [hstep.2]
        simp [cursorAfter]

lemma edgeEvents_countP_zero (was : Option Bool) (now : Bool) (a b : LogEvent)
    (p : LogEvent → Bool) (ha : p a = false) (hb : p b = false) :
    (edgeEvents was now a b).countP p = 0 := by
  rw [edgeEvents_countP, ha, hb]
  simp

/-- Budget of low battery warnings a state can still emit. -/
def lbBound (s : ViewerState) : Nat :=
  if s.low_battery_warned = true then 0 else 1

/-- One tick consumes the low battery warning budget: the warnings it
emits plus the budget left afterwards never exceed the budget before. -/
lemma update_loop_lowBattery (s : ViewerState) (inp : TickInput) :
    (update_loop s inp).2.countP isLowBatteryEv
      + lbBound (update_loop s inp).1 ≤ lbBound s := by
  have hpres := (processBatch_preserved inp.current_time s inp.frames).2.1
  rw [update_loop_snd, update_loop_fst, postBatch_snd, postBatch_fst]
  rw [List.countP_append, List.countP_append, List.countP_append]
  rw [processBatch_countP inp.current_time s inp.frames isLowBatteryEv (fun n => rfl)]
  rw [batteryEvents_countP_lb]
  rw [edgeEvents_countP_zero _ _ _ _ _ rfl rfl, edgeEvents_countP_zero _ _ _ _ _ rfl rfl]
  rw [hpres]
  cases hb : inp.battery with
  | none => simp [lbBound]
  | some b =>
    by_cases h20 : b < 20 <;> cases hw : s.low_battery_warned <;>
      simp [lbBound, h20, hw]

/-- Over any run the total number of low battery warnings is bounded by
the initial budget. -/
lemma runEvents_lowBattery (inps : List TickInput) :
    ∀ s : ViewerState,
      ((runEvents s inps).flatten.countP isLowBatteryEv) ≤ lbBound s := by
  induction inps with
  | nil =>
    intro s
    exact Nat.zero_le _
  | cons i is ih =>
    intro s
    have h1 := update_loop_lowBattery s i
    have h2 := ih (update_loop s i).1
    simp only [runEvents, List.flatten_cons, List.countP_append]
    omega

/-- Projection of the tick to the rolling window: the post-batch section
leaves the window alone. -/
lemma update_loop_samples_eq (s : ViewerState) (inp : TickInput) :
    (update_loop s inp).1.frame_rate_samples
      = (processBatch inp.current_time s inp.frames).1.frame_rate_samples := by
  rw [update_loop_fst, postBatch_fst]

/-- Projection of the tick to the recorded frame time: the post-batch
section leaves it alone. -/
lemma update_loop_time_eq (s : ViewerState) (inp : TickInput) :
    (update_loop s inp).1.last_frame_time
      = (processBatch inp.current_time s inp.frames).1.last_frame_time := by
  rw [update_loop_fst, postBatch_fst]

/-- Per tick the rolling window either stays put or receives exactly one
pushed sample, and a nonempty batch stamps the frame time with the tick
timestamp. -/
lemma update_loop_samples (s : ViewerState) (inp : TickInput) :
    ((update_loop s inp).1.frame_rate_samples = s.frame_rate_samples
      ∨ ∃ x, (update_loop s inp).1.frame_rate_samples
               = pushSample s.frame_rate_samples x)
  ∧ (update_loop s inp).1.last_frame_time
      = (if inp.frames = [] then s.last_frame_time else inp.current_time) := by
  rw [update_loop_samples_eq, update_loop_time_eq]
  cases hf : inp.frames with
  | nil => exact ⟨Or.inl rfl, by simp [processBatch]⟩
  | cons first rest =>
    simp only [processBatch]
    rw [List.foldl_cons]
    have hstable := foldl_processFrame_stable first inp.current_time rest
      (processFrame first inp.current_time (s, []) first) (by simp [processFrame_eq])
    constructor
    · rw [hstable.1, processFrame_eq]
      show nextSamples inp.current_time s.last_frame_time s.frame_rate_samples
             = s.frame_rate_samples
           ∨ ∃ x, nextSamples inp.current_time s.last_frame_time s.frame_rate_samples
                    = pushSample s.frame_rate_samples x
      unfold nextSamples
      split
      · exact Or.inr ⟨_, rfl⟩
      · exact Or.inl rfl
    · rw [hstable.2]
      simp

lemma pushSample_length_le (l : List ℚ) (x : ℚ) (h : l.length ≤ 10) :
    (pushSample l x).length ≤ 10 := by
  unfold pushSample
  split
  · next h2 =>
    simp only [List.length_drop, List.length_append, List.length_singleton]
    omega
  · next h2 =>
    simp only [List.length_append, List.length_singleton] at h2 ⊢
    omega

lemma pushSample_full (l : List ℚ) (x : ℚ) (h : l.length = 10) :
    pushSample l x = l.drop 1 ++ [x] := by
  unfold pushSample
  rw [if_pos (by simp [h]), List.drop_append_of_le_length (by omega)]

/-- Projection of the tick to frame drops: the post-batch section leaves
them alone. -/
lemma update_loop_drops_eq (s : ViewerState) (inp : TickInput) :
    (update_loop s inp).1.frame_drops
      = (processBatch inp.current_time s inp.frames).1.frame_drops := by
  rw [update_loop_fst, postBatch_fst]

/-- Projection of the tick to the recorded last sequence: the post-batch
section leaves it alone. -/
lemma update_loop_lastcount_eq (s : ViewerState) (inp : TickInput) :
    (update_loop s inp).1.last_frame_count
      = (processBatch inp.current_time s inp.frames).1.last_frame_count := by
  rw [update_loop_fst, postBatch_fst]

/-- Projection of the tick to the total frames counter: the post-batch
section leaves it alone. -/
lemma update_loop_total_eq (s : ViewerState) (inp : TickInput) :
    (update_loop s inp).1.total_frames_received
      = (processBatch inp.current_time s inp.frames).1.total_frames_received := by
  rw [update_loop_fst, postBatch_fst]

lemma dropDelta_self (c : Nat) (f : PoseFrame) :
    dropDelta c f f
      = (if 0 < c ∧ c + 1 < f.frame_count then f.frame_count - (c + 1) else 0) := by
  unfold dropDelta
  by_cases h1 : 0 < c
  · by_cases h2 : c + 1 < f.frame_count <;> simp [h1, h2]
  · simp [h1]

lemma cursorAfter_append (l1 l2 : List Nat) :
    ∀ o : Option Nat, cursorAfter o (l1 ++ l2) = cursorAfter (cursorAfter o l1) l2 := by
  induction l1 with
  | nil => intro o; rfl
  | cons c l1 ih => intro o; simpa [cursorAfter] using ih (some c)

/-- One tick of frames continuing in steps of exactly one adds no drops
and moves the recorded sequence to the cursor. -/
lemma update_loop_consec (s : ViewerState) (inp : TickInput) (o : Option Nat)
    (h : s.last_frame_count = o.getD 0)
    (hc : consecAfter o (inp.frames.map PoseFrame.frame_count) = true) :
    ((update_loop s inp).1.frame_drops = s.frame_drops)
  ∧ ((update_loop s inp).1.last_frame_count
       = (cursorAfter o (inp.frames.map PoseFrame.frame_count)).getD 0) := by
  rw [update_loop_drops_eq, update_loop_lastcount_eq]
  cases hf : inp.frames with
  | nil =>
    refine ⟨rfl, ?_⟩
    simpa [cursorAfter] using h
  | cons first rest =>
    rw [hf] at hc
    simp only [processBatch]
    exact foldl_processFrame_consec first inp.current_time (first :: rest) (s, []) o h hc

/-- Over any run of ticks, frames continuing in steps of exactly one add
no drops. -/
lemma runTicks_consec (inps : List TickInput) :
    ∀ (s : ViewerState) (o : Option Nat),
      s.last_frame_count = o.getD 0 →
      consecAfter o ((inps.map TickInput.frames).flatten.map PoseFrame.frame_count)
        = true →
      ((runTicks s inps).frame_drops = s.frame_drops)
    ∧ ((runTicks s inps).last_frame_count
         = (cursorAfter o
             ((inps.map TickInput.frames).flatten.map PoseFrame.frame_count)).getD 0) := by
  induction inps with
  | nil => intro s o h hc; exact ⟨rfl, h⟩
  | cons i is ih =>
    intro s o h hc
    rw [List.map_cons, List.flatten_cons, List.map_append, consecAfter_append,
      Bool.and_eq_true] at hc
    have htick := update_loop_consec s i o h hc.1
    have hrest := ih (update_loop s i).1
      (cursorAfter o (i.frames.map PoseFrame.frame_count)) htick.2 hc.2
    simp only [runTicks]
    refine ⟨?_, ?_⟩
    · rw [hrest.1, htick.1]
    · rw [hrest.2, List.map_cons, List.flatten_cons, List.map_append, cursorAfter_append]

/-- Tick input with no frames, no optional fields and both flags down,
used as a base for concrete scenarios. -/
def quietTick : TickInput :=
  { current_time := 0
    frames := []
    connected := false
    tracking := false
    battery := none
    latency := 0
    frame_count := none
    tracking_lost := none }

/-- State with a positive drop reference already recorded. -/
def stateC1 : ViewerState := { initState with last_frame_count := 2 }

/-- Batch whose third frame equals its first frame, after sequence 2. -/
def inputC1 : TickInput :=
  { quietTick with frames := [⟨5, 0⟩, ⟨3, 1⟩, ⟨5, 0⟩] }

/-- C1 counterexample: with last sequence 2 and the drained batch
[5, 3, 5] whose final frame equals the first, the claim predicts
frame_drops to increase by first - expected = 5 - 3 = 2, but the code
evaluates the drop check at every frame equal to the first one and
counts 3. -/
theorem C1_counterexample :
    stateC1.last_frame_count = 2 ∧ stateC1.frame_drops = 0
  ∧ inputC1.frames.head? = some ⟨5, 0⟩
  ∧ (5 : Nat) - (stateC1.last_frame_count + 1) = 2
  ∧ (update_loop stateC1 inputC1).1.frame_drops = 3
  ∧ ¬((update_loop stateC1 inputC1).1.frame_drops = stateC1.frame_drops + 2) := by
  decide

/-- C1 (amended): for every nonempty batch drained in a tick in which no
later frame equals the first frame, the drop check contributes exactly
once, against the first frame: with no positive prior reference
frame_drops is unchanged; otherwise, with expected = last_frame_count + 1,
frame_drops grows by first.frame_count - expected exactly when the first
sequence exceeds expected and is unchanged otherwise, while every frame
of the batch is still processed and the recorded sequence ends at the
final frame of the batch. -/
theorem C1_amended_batch_drop_accounting (s : ViewerState) (inp : TickInput)
    (first : PoseFrame) (rest : List PoseFrame)
    (hb : inp.frames = first :: rest)
    (hne : ∀ f ∈ rest, f ≠ first) :
    ((update_loop s inp).1.frame_drops
       = (if 0 < s.last_frame_count ∧ s.last_frame_count + 1 < first.frame_count
          then s.frame_drops + (first.frame_count - (s.last_frame_count + 1))
          else s.frame_drops))
  ∧ ((update_loop s inp).1.last_frame_count = (rest.getLastD first).frame_count)
  ∧ ((update_loop s inp).1.total_frames_received
       = s.total_frames_received + (first :: rest).length) := by
  refine ⟨?_, ?_, ?_⟩
  · rw [update_loop_drops_eq, hb]
    simp only [processBatch]
    rw [List.foldl_cons,
      (foldl_processFrame_no_first first inp.current_time rest hne _).1]
    simp only [processFrame_eq, dropDelta_self]
    by_cases hcond : 0 < s.last_frame_count ∧ s.last_frame_count + 1 < first.frame_count
    · simp [hcond]
    · simp [hcond]
  · rw [update_loop_lastcount_eq, hb]
    simp only [processBatch]
    rw [List.foldl_cons,
      (foldl_processFrame_no_first first inp.current_time rest hne _).2]
    rw [List.getLastD_eq_getLast?]
    cases hr : rest.getLast? with
    | none => simp [processFrame_eq]
    | some g => simp
  · rw [update_loop_total_eq, hb]
    simp only [processBatch]
    rw [foldl_processFrame_total first inp.current_time (first :: rest) (s, [])]

/-- Batch without repeated frames used to instantiate the amended C1. -/
def inputC1w : TickInput :=
  { quietTick with frames := [⟨5, 0⟩, ⟨7, 1⟩] }

/-- C1 amended claim instantiated at last sequence 2 and batch [5, 7]:
two drops are counted, the recorded sequence ends at 7 and both frames
are processed. -/
theorem C1_amended_witness :
    (update_loop stateC1 inputC1w).1.frame_drops = 2
  ∧ (update_loop stateC1 inputC1w).1.last_frame_count = 7
  ∧ (update_loop stateC1 inputC1w).1.total_frames_received = 2 := by
  have h := C1_amended_batch_drop_accounting stateC1 inputC1w ⟨5, 0⟩ [⟨7, 1⟩] rfl
    (by decide)
  refine ⟨h.1.trans (by decide), h.2.1.trans (by decide), h.2.2.trans (by decide)⟩

/-- State in which the previous tracking flag was recorded as true. -/
def stateC2 : ViewerState := { initState with was_tracking := some true }

/-- Tick with a tracking loss edge and a device reported lost counter of
5. -/
def inputC2 : TickInput := { quietTick with tracking_lost := some 5 }

/-- C2 counterexample: on a tick where tracking goes true to false while
the device reports a lost counter of 5, the Tracking Lost Events display
jumps from 0 to 5 (the raw counter), not to 0 + 1 as the claim of a
transition-derived counter predicts. -/
theorem C2_counterexample :
    stateC2.tracking_lost_display = 0
  ∧ stateC2.was_tracking = some true
  ∧ inputC2.tracking = false
  ∧ (update_loop stateC2 inputC2).2.countP isTrackLostEv = 1
  ∧ (update_loop stateC2 inputC2).1.tracking_lost_display = 5
  ∧ ¬((update_loop stateC2 inputC2).1.tracking_lost_display
        = stateC2.tracking_lost_display + 1) := by
  decide

/-- Edge event counts of one tick for an arbitrary recognizer that
ignores the dropped frames and low battery warnings. -/
lemma update_loop_countP_edge (s : ViewerState) (inp : TickInput)
    (p : LogEvent → Bool) (hd : ∀ n, p (LogEvent.droppedFrames n) = false)
    (hlb : ∀ n, p (LogEvent.lowBattery n) = false) :
    (update_loop s inp).2.countP p
      = (if s.was_connected = some false ∧ inp.connected = true
         then (if p LogEvent.connectionStarted then 1 else 0)
         else if s.was_connected = some true ∧ inp.connected = false
         then (if p LogEvent.connectionLost then 1 else 0)
         else 0)
      + (if s.was_tracking = some false ∧ inp.tracking = true
         then (if p LogEvent.trackingStarted then 1 else 0)
         else if s.was_tracking = some true ∧ inp.tracking = false
         then (if p LogEvent.trackingLost then 1 else 0)
         else 0) := by
  rw [update_loop_snd, postBatch_snd]
  rw [List.countP_append, List.countP_append, List.countP_append]
  rw [processBatch_countP inp.current_time s inp.frames p hd]
  rw [batteryEvents_countP_zero _ _ p hlb]
  rw [edgeEvents_countP, edgeEvents_countP]
  rw [(processBatch_preserved inp.current_time s inp.frames).2.2.2.2.2.2.1,
      (processBatch_preserved inp.current_time s inp.frames).2.2.2.2.2.2.2]
  omega

/-- C2 (amended): the viewer maintains no transition-derived tracking
lost counter; the value displayed as Tracking Lost Events is the device
reported raw counter, trusted as-is — set to the raw value whenever one
is reported and left unchanged otherwise — while the tracking true to
false edge only emits one tracking lost log event. -/
theorem C2_amended_raw_tracking_lost_counter (s : ViewerState) (inp : TickInput) :
    ((update_loop s inp).1.tracking_lost_display
       = match inp.tracking_lost with
         | none => s.tracking_lost_display
         | some v => v)
  ∧ ((update_loop s inp).2.countP isTrackLostEv
       = if s.was_tracking = some true ∧ inp.tracking = false then 1 else 0) := by
  constructor
  · rw [update_loop_fst, postBatch_fst]
    have hp := (processBatch_preserved inp.current_time s inp.frames).2.2.2.2.1
    cases htl : inp.tracking_lost with
    | none => simpa using hp
    | some v => simp
  · rw [update_loop_countP_edge s inp isTrackLostEv (fun n => rfl) (fun n => rfl)]
    simp only [isTrackLostEv]
    split_ifs <;> simp_all

/-- First tick input with the connection flag already up. -/
def inputC3 : TickInput := { quietTick with connected := true }

/-- C3 counterexample: the claim takes the initial state of both flags to
be false, so a first tick with the connection flag up should emit a
started event; the code has no recorded previous value on the first tick
(hasattr guard) and emits nothing at all. -/
theorem C3_counterexample :
    initState.was_connected = none
  ∧ inputC3.connected = true
  ∧ (update_loop initState inputC3).2 = [] := by
  decide

/-- The five tick scenario of the claim: connection flag false, false,
true, true, false. -/
def exampleFlagTicks : List TickInput :=
  [quietTick, quietTick, { quietTick with connected := true },
   { quietTick with connected := true }, quietTick]

/-- C3 (amended): the previous value of each flag is unknown at startup
and the first tick emits no edge event for it regardless of its value;
from then on, each tick emits exactly one started event per flag exactly
on a false to true change, exactly one lost event exactly on a true to
false change and nothing on steady state, and stores the flags for the
next tick; the sequence false, false, true, true, false emits exactly one
started event at the third tick and one lost event at the fifth. -/
theorem C3_amended_edge_events (s : ViewerState) (inp : TickInput) :
    ((update_loop s inp).2.countP isConnStartedEv
       = if s.was_connected = some false ∧ inp.connected = true then 1 else 0)
  ∧ ((update_loop s inp).2.countP isConnLostEv
       = if s.was_connected = some true ∧ inp.connected = false then 1 else 0)
  ∧ ((update_loop s inp).2.countP isTrackStartedEv
       = if s.was_tracking = some false ∧ inp.tracking = true then 1 else 0)
  ∧ ((update_loop s inp).2.countP isTrackLostEv
       = if s.was_tracking = some true ∧ inp.tracking = false then 1 else 0)
  ∧ ((update_loop s inp).1.was_connected = some inp.connected)
  ∧ ((update_loop s inp).1.was_tracking = some inp.tracking)
  ∧ (runEvents initState exampleFlagTicks
       = [[], [], [LogEvent.connectionStarted], [], [LogEvent.connectionLost]]) := by
  refine ⟨?_, ?_, ?_, ?_, ?_, ?_, by decide⟩
  · rw [update_loop_countP_edge s inp isConnStartedEv (fun n => rfl) (fun n => rfl)]
    simp only [isConnStartedEv]
    split_ifs <;> simp_all
  · rw [update_loop_countP_edge s inp isConnLostEv (fun n => rfl) (fun n => rfl)]
    simp only [isConnLostEv]
    split_ifs <;> simp_all
  · rw [update_loop_countP_edge s inp isTrackStartedEv (fun n => rfl) (fun n => rfl)]
    simp only [isTrackStartedEv]
    split_ifs <;> simp_all
  · rw [update_loop_countP_edge s inp isTrackLostEv (fun n => rfl) (fun n => rfl)]
    simp only [isTrackLostEv]
    split_ifs <;> simp_all
  · rw [update_loop_fst, postBatch_fst]
  · rw [update_loop_fst, postBatch_fst]

/-- C4: the rolling rate window invariant — after a tick the window still
holds at most 10 samples, pushing onto a full window of 10 evicts the
oldest sample (FIFO), and the reported average frame rate is the
arithmetic mean of the current samples, with no value reported exactly
when the window is empty. -/
theorem C4_rolling_rate_window (s : ViewerState) (inp : TickInput) (x : ℚ)
    (h : s.frame_rate_samples.length ≤ 10) :
    ((update_loop s inp).1.frame_rate_samples.length ≤ 10)
  ∧ (s.frame_rate_samples.length = 10 →
       pushSample s.frame_rate_samples x = s.frame_rate_samples.drop 1 ++ [x])
  ∧ (averageRate s.frame_rate_samples = none ↔ s.frame_rate_samples = [])
  ∧ (s.frame_rate_samples ≠ [] →
       averageRate s.frame_rate_samples
         = some (s.frame_rate_samples.sum / (s.frame_rate_samples.length : ℚ))) := by
  refine ⟨?_, ?_, ?_, ?_⟩
  · rcases (update_loop_samples s inp).1 with hsame | ⟨y, hpush⟩
    · rw [hsame]; exact h
    · rw [hpush]; exact pushSample_length_le _ _ h
  · intro h10
    exact pushSample_full _ _ h10
  · unfold averageRate
    split <;> simp_all
  · intro hne
    unfold averageRate
    rw [if_neg hne]

/-- State whose rolling window already holds 10 samples. -/
def stateC4 : ViewerState :=
  { initState with frame_rate_samples := [1, 1, 1, 1, 1, 1, 1, 1, 1, 1] }

/-- C4 instantiated on a full window of 10 samples: a tick keeps the
window within 10 samples and a push evicts the oldest sample. -/
theorem C4_rolling_rate_window_witness :
    stateC4.frame_rate_samples.length = 10
  ∧ (update_loop stateC4 quietTick).1.frame_rate_samples.length ≤ 10
  ∧ pushSample stateC4.frame_rate_samples 2
      = stateC4.frame_rate_samples.drop 1 ++ [2] := by
  have h := C4_rolling_rate_window stateC4 quietTick 2 (by decide)
  exact ⟨by decide, h.1, h.2.1 (by decide)⟩

/-- Two single-frame ticks whose sequences are strictly increasing but
not consecutive. -/
def inputC5a : TickInput := { quietTick with frames := [⟨1, 0⟩] }

/-- Second strictly increasing tick, jumping from sequence 1 to 3. -/
def inputC5b : TickInput := { quietTick with frames := [⟨3, 0⟩] }

/-- Sequence values are strictly increasing along the list. -/
def strictlyIncreasing : List Nat → Bool
  | [] => true
  | [_] => true
  | a :: b :: l => decide (a < b) && strictlyIncreasing (b :: l)

/-- C5 counterexample: the stream of frames 1 then 3 over two ticks is
strictly increasing, yet the code counts one drop for the gap (expected
2, got 3), so frame_drops does not remain 0. -/
theorem C5_counterexample :
    strictlyIncreasing
        (([inputC5a, inputC5b].map TickInput.frames).flatten.map PoseFrame.frame_count)
      = true
  ∧ (runTicks initState [inputC5a, inputC5b]).frame_drops = 1
  ∧ ¬((runTicks initState [inputC5a, inputC5b]).frame_drops = 0) := by
  decide

/-- C5 (amended): for every stream of frames across batches and ticks
whose sequence values increase in steps of exactly one (consecutive
sequences), frame_drops remains 0. -/
theorem C5_amended_consecutive_no_drops (inps : List TickInput)
    (h : consecAfter none
           ((inps.map TickInput.frames).flatten.map PoseFrame.frame_count) = true) :
    (runTicks initState inps).frame_drops = 0 :=
  ((runTicks_consec inps initState none rfl h).1).trans rfl

/-- First consecutive tick of the C5 witness scenario. -/
def inputC5w1 : TickInput := { quietTick with frames := [⟨1, 0⟩, ⟨2, 1⟩] }

/-- Second consecutive tick of the C5 witness scenario. -/
def inputC5w2 : TickInput := { quietTick with frames := [⟨3, 2⟩] }

/-- C5 amended claim instantiated on the consecutive stream 1, 2 then 3:
no drops are counted. -/
theorem C5_amended_witness :
    consecAfter none
        (([inputC5w1, inputC5w2].map TickInput.frames).flatten.map PoseFrame.frame_count)
      = true
  ∧ (runTicks initState [inputC5w1, inputC5w2]).frame_drops = 0 :=
  ⟨by decide, C5_amended_consecutive_no_drops [inputC5w1, inputC5w2] (by decide)⟩

/-- C6: the per-tick update is a total function of the drained values and
degrades absent transport fields to no update this tick — an absent
battery, device frame counter or device lost counter leaves the
corresponding display unchanged, an empty batch leaves the pose display
unchanged, and the non-optional latency is displayed every tick. -/
theorem C6_tick_completes_and_degrades (s : ViewerState) (inp : TickInput) :
    ((update_loop s inp).1.batt_display
       = match inp.battery with | none => s.batt_display | some b => some b)
  ∧ ((update_loop s inp).1.frame_count_display
       = match inp.frame_count with | none => s.frame_count_display | some c => some c)
  ∧ ((update_loop s inp).1.tracking_lost_display
       = match inp.tracking_lost with | none => s.tracking_lost_display | some v => v)
  ∧ ((update_loop s inp).1.pose_display
       = match inp.frames.getLast? with
         | none => s.pose_display
         | some f => some f.quest_pose_3d)
  ∧ ((update_loop s inp).1.latency_display = some inp.latency) := by
  have hp := processBatch_preserved inp.current_time s inp.frames
  refine ⟨?_, ?_, ?_, ?_, ?_⟩
  · rw [update_loop_fst, postBatch_fst]
    cases hb : inp.battery with
    | none => simpa using hp.1
    | some b => simp
  · rw [update_loop_fst, postBatch_fst]
    cases hf : inp.frame_count with
    | none => simpa using hp.2.2.2.1
    | some c => simp
  · rw [update_loop_fst, postBatch_fst]
    cases htl : inp.tracking_lost with
    | none => simpa using hp.2.2.2.2.1
    | some v => simp
  · rw [update_loop_fst, postBatch_fst]
    simpa using processBatch_pose inp.current_time s inp.frames
  · rw [update_loop_fst, postBatch_fst]

/-- C7: custom pose validation — whenever any of the four fields fails to
parse the command is rejected: an error is shown and nothing is
published; whenever all four parse, exactly one set pose command carrying
the parsed values is sent. -/
theorem C7_custom_pose_validation (xs ys zs yaws : Option ℚ) :
    ((xs = none ∨ ys = none ∨ zs = none ∨ yaws = none) →
       (send_custom_pose xs ys zs yaws).sent_commands = []
     ∧ (send_custom_pose xs ys zs yaws).error_shown = true)
  ∧ (∀ x y z w, xs = some x → ys = some y → zs = some z → yaws = some w →
       (send_custom_pose xs ys zs yaws).sent_commands = [PoseCommand.setPose x y z w]
     ∧ (send_custom_pose xs ys zs yaws).error_shown = false) := by
  cases xs <;> cases ys <;> cases zs <;> cases yaws <;>
    refine ⟨fun h => ?_, fun x y z w hx hy hz hw => ?_⟩ <;>
    simp_all [send_custom_pose]

/-- C7 instantiated: a missing third coordinate publishes nothing, while
four parsed values publish exactly one set pose command carrying them. -/
theorem C7_custom_pose_validation_witness :
    (send_custom_pose (some 1) (some 2) none (some 0)).sent_commands = []
  ∧ (send_custom_pose (some 1) (some 2) (some 3) (some 0)).sent_commands
      = [PoseCommand.setPose 1 2 3 0] :=
  ⟨((C7_custom_pose_validation (some 1) (some 2) none (some 0)).1
      (Or.inr (Or.inr (Or.inl rfl)))).1,
   ((C7_custom_pose_validation (some 1) (some 2) (some 3) (some 0)).2
      1 2 3 0 rfl rfl rfl rfl).1⟩

/-- C8: all frames of a batch are stamped with the one timestamp read at
the top of the tick, so the rolling window receives at most one pushed
sample per tick however long the batch is, and a nonempty batch leaves
the recorded frame time equal to the tick timestamp. -/
theorem C8_one_rate_sample_per_tick (s : ViewerState) (inp : TickInput) :
    ((update_loop s inp).1.frame_rate_samples = s.frame_rate_samples
      ∨ ∃ x, (update_loop s inp).1.frame_rate_samples
               = pushSample s.frame_rate_samples x)
  ∧ (update_loop s inp).1.last_frame_time
      = (if inp.frames = [] then s.last_frame_time else inp.current_time) :=
  update_loop_samples s inp

/-- Batch equal to the C9 scenario: a large first sequence, a stale
frame, and a repeat of the first frame. -/
def inputC9 : TickInput := { quietTick with frames := [⟨5, 0⟩, ⟨3, 1⟩, ⟨5, 0⟩] }

/-- C9 counterexample: from the initial state (last sequence 0) the drop
check is skipped for the first frame, but a later frame equal to the
first re-fires it once the recorded sequence is positive, so frame_drops
does change over the batch. -/
theorem C9_counterexample :
    initState.last_frame_count = 0
  ∧ (update_loop initState inputC9).1.frame_drops = 1
  ∧ ¬((update_loop initState inputC9).1.frame_drops = initState.frame_drops) := by
  decide

/-- C9 (amended): when the recorded last sequence is 0 (initial state, or
after a frame with sequence 0), the drop check is skipped for the first
frame of the next batch no matter how large its sequence, and frame_drops
is unchanged over the whole batch provided no later frame of the batch
equals the first frame. -/
theorem C9_amended_zero_reference (s : ViewerState) (inp : TickInput)
    (first : PoseFrame) (rest : List PoseFrame)
    (h0 : s.last_frame_count = 0)
    (hb : inp.frames = first :: rest)
    (hne : ∀ f ∈ rest, f ≠ first) :
    (update_loop s inp).1.frame_drops = s.frame_drops := by
  rw [update_loop_drops_eq, hb]
  simp only [processBatch]
  rw [List.foldl_cons,
    (foldl_processFrame_no_first first inp.current_time rest hne _).1]
  simp [processFrame_eq, h0, dropDelta_zero]

/-- Single-frame batch with a huge sequence gap from the initial state. -/
def inputC9w : TickInput := { quietTick with frames := [⟨100, 0⟩] }

/-- C9 amended claim instantiated: from the initial state a first batch
starting at sequence 100 adds no drops. -/
theorem C9_amended_witness :
    initState.last_frame_count = 0
  ∧ (update_loop initState inputC9w).1.frame_drops = initState.frame_drops :=
  ⟨rfl, C9_amended_zero_reference initState inputC9w ⟨100, 0⟩ [] rfl rfl (by decide)⟩

/-- C10: the low battery warning fires at most once per process lifetime —
over every run of ticks from the initial state, at most one low battery
warning event is ever logged, no matter how the battery level moves below
and above 20. -/
theorem C10_low_battery_warning_once (inps : List TickInput) :
    ((runEvents initState inps).flatten.countP isLowBatteryEv) ≤ 1 := by
  have h := runEvents_lowBattery inps initState
  have hb : lbBound initState = 1 := rfl
  omega
